import Mathlib

/-!
# Verification development for `internal/pubsub/pubsub.go`

A shallow embedding of the publish/subscribe layer over an AMQP client.

* The AMQP client library, `encoding/json` and `encoding/gob` are external to the
  repository; their operations appear here as oracles: fields of `Connection`,
  `Channel` and `Delivery`, and explicit marshal / unmarshal parameters.
* Every call the code makes on the broker is recorded in a trace, so that
  "which call is made, with which arguments, in which order" is a statement
  about a list.
* `error` values are represented by their message (`Err`); a nil error is `none`.
* `QueueType` and `AckType` are Go `int` types; they are embedded as `Int`, so that
  values other than the named constants exist, as they do in Go.
-/

namespace Pubsub

/-- Go `[]byte`. -/
abbrev Bytes := List Nat

/-- A non-nil Go `error`, represented by its message. -/
abbrev Err := String

/-- The `amqp.Table` type (a map from strings to values); the nil table is `[]`. -/
abbrev Table := List (String × String)

/-- Source: `type QueueType int`. -/
abbrev QueueType := Int

/-- Source: `DurableQueue QueueType = iota`. -/
def DurableQueue : QueueType := 0

/-- Source: `TransientQueue` (iota = 1). -/
def TransientQueue : QueueType := 1

/-- Source: `type AckType int`. -/
abbrev AckType := Int

/-- Source: `Ack AckType = iota`. -/
def Ack : AckType := 0

/-- Source: `NackRequeue` (iota = 1). -/
def NackRequeue : AckType := 1

/-- Source: `NackDiscard` (iota = 2). -/
def NackDiscard : AckType := 2

/-- The `amqp.Queue` value returned by a queue declaration. -/
structure Queue where
  Name : String
  Messages : Int
  Consumers : Int
  deriving DecidableEq, Repr

/-- The fields of `amqp.Publishing` that `publish` sets; all others keep their zero value. -/
structure Publishing where
  ContentType : String
  Body : Bytes
  deriving DecidableEq, Repr

/-- An acknowledgment call on a delivery: `delivery.Ack(multiple)` or
`delivery.Nack(multiple, requeue)`. -/
inductive AckCall where
  | Ack (multiple : Bool)
  | Nack (multiple requeue : Bool)
  deriving DecidableEq, Repr

/-- An `amqp.Delivery`: its body and the outcome of its acknowledgment methods
(`none` is a nil error). -/
structure Delivery where
  Body : Bytes
  Ack : Bool → Option Err
  Nack : Bool → Bool → Option Err

/-- Outcome of an acknowledgment call on a delivery. -/
def Delivery.invoke (d : Delivery) : AckCall → Option Err
  | .Ack multiple => d.Ack multiple
  | .Nack multiple requeue => d.Nack multiple requeue

/-- The methods of `*amqp.Channel` that the package calls, as outcome oracles.
`Consume` yields the deliveries that the feed carries before it is closed. -/
structure Channel where
  QueueDeclare : String → Bool → Bool → Bool → Bool → Table → Except Err Queue
  QueueBind : String → String → String → Bool → Table → Option Err
  Consume : String → String → Bool → Bool → Bool → Bool → Table → Except Err (List Delivery)
  PublishWithContext : String → String → Bool → Bool → Publishing → Option Err

/-- The one method of `*amqp.Connection` that the package calls: `conn.Channel()`. -/
structure Connection where
  Channel : Except Err Channel

/-- A call made on the connection or on a channel, with its arguments. -/
inductive Call where
  | Channel
  | QueueDeclare (name : String) (durable autoDelete exclusive noWait : Bool) (args : Table)
  | QueueBind (name key exchange : String) (noWait : Bool) (args : Table)
  | Consume (queue consumer : String) (autoAck exclusive noLocal noWait : Bool) (args : Table)
  | PublishWithContext (exchange key : String) (mandatory immediate : Bool) (msg : Publishing)
  deriving DecidableEq, Repr

/-- What the consumption loop does, in order: it invokes the handler on the decoded
value of delivery `i` (the event also records the decision returned), it issues an
acknowledgment call on delivery `i`, or it writes a line to standard error. -/
inductive Event (T : Type) where
  | handler (i : Nat) (v : T) (ret : AckType)
  | call (i : Nat) (c : AckCall)
  | stderr (msg : String)
  deriving DecidableEq, Repr

/-- Index of the delivery an event belongs to (none for a log line). -/
def Event.idx {T : Type} : Event T → Option Nat
  | .handler i _ _ => some i
  | .call i _ => some i
  | .stderr _ => none

/-- Index of the delivery an acknowledgment call is issued on. -/
def Event.ackFor {T : Type} : Event T → Option Nat
  | .call i _ => some i
  | _ => none

/-- Index of the delivery and the value the handler is invoked on. -/
def Event.handlerArg {T : Type} : Event T → Option (Nat × T)
  | .handler i v _ => some (i, v)
  | _ => none

/-- True for a line written to standard error. -/
def Event.isStderr {T : Type} : Event T → Bool
  | .stderr _ => true
  | _ => false

/-- Source: `DeclareAndBind` (pubsub.go 29-62). Returns the result and the calls made. -/
def DeclareAndBind (conn : Connection) (exchange queueName key : String) (qt : QueueType) :
    Except Err (Channel × Queue) × List Call :=
  match conn.Channel with
  | .error err => (.error err, [Call.Channel])
  | .ok channel =>
    let durable : Bool := decide (qt = DurableQueue)
    let autoDelete : Bool := !durable
    let exclusive : Bool := autoDelete
    let table : Table := [("x-dead-letter-exchange", "peril_dlx")]
    let declare := Call.QueueDeclare queueName durable autoDelete exclusive false table
    match channel.QueueDeclare queueName durable autoDelete exclusive false table with
    | .error err => (.error err, [Call.Channel, declare])
    | .ok queue =>
      let bind := Call.QueueBind queueName key exchange false []
      match channel.QueueBind queueName key exchange false [] with
      | some err => (.error err, [Call.Channel, declare, bind])
      | none => (.ok (channel, queue), [Call.Channel, declare, bind])

/-- Source: `publish` (pubsub.go 64-79). Returns the error of the send and the calls made. -/
def publish (ch : Channel) (contentType exchange key : String) (encodedVal : Bytes) :
    Option Err × List Call :=
  let toSend : Publishing := Publishing.mk contentType encodedVal
  (ch.PublishWithContext exchange key false false toSend,
    [Call.PublishWithContext exchange key false false toSend])

/-- Source: `PublishJSON` (pubsub.go 81-93); `jsonMarshal` stands for `json.Marshal`. -/
def PublishJSON {T : Type} (jsonMarshal : T → Except Err Bytes)
    (ch : Channel) (exchange key : String) (val : T) : Option Err × List Call :=
  match jsonMarshal val with
  | .error err => (some err, [])
  | .ok encodedVal => publish ch "application/json" exchange key encodedVal

/-- Source: `PublishGob` (pubsub.go 95-110); `gobEncode` stands for encoding into a fresh
buffer with `gob.NewEncoder(&buf).Encode(val)` and reading `buf.Bytes()`. -/
def PublishGob {T : Type} (gobEncode : T → Except Err Bytes)
    (ch : Channel) (exchange key : String) (val : T) : Option Err × List Call :=
  match gobEncode val with
  | .error err => (some err, [])
  | .ok encodedVal => publish ch "application/gob" exchange key encodedVal

/-- Source: the `switch handler(rawT)` of `subscribe` (pubsub.go 142-165), for delivery
number `i`. Returns the events produced and whether the loop goes on (`false` is the
`return` that ends the goroutine). -/
def ackDispatch {T : Type} (decision : AckType) (i : Nat) (delivery : Delivery) :
    List (Event T) × Bool :=
  if decision = Ack then
    match delivery.Ack false with
    | some err =>
      ([Event.call i (AckCall.Ack false),
        Event.stderr ("failed to acknowledge delivery: " ++ err ++ "\n")], false)
    | none => ([Event.call i (AckCall.Ack false)], true)
  else if decision = NackRequeue then
    match delivery.Nack false true with
    | some err =>
      ([Event.call i (AckCall.Nack false true),
        Event.stderr ("failed to negative acknowledge and requeue delivery: " ++ err ++ "\n")],
        false)
    | none => ([Event.call i (AckCall.Nack false true)], true)
  else if decision = NackDiscard then
    match delivery.Nack false false with
    | some err =>
      ([Event.call i (AckCall.Nack false false),
        Event.stderr ("failed to negative acknowledge and discard delivery: " ++ err ++ "\n")],
        false)
    | none => ([Event.call i (AckCall.Nack false false)], true)
  else ([], true)

/-- Source: the goroutine of `subscribe` (pubsub.go 132-167): `for delivery := range
deliveryCh`, run on the deliveries the feed carries until it is closed. The handler is a Go
closure, so it carries a state `σ` that it may change; `i` numbers the deliveries. -/
def consumeLoop {T σ : Type} (handler : σ → T → AckType × σ)
    (unmarshaller : Bytes → Except Err T) : σ → Nat → List Delivery → List (Event T)
  | _, _, [] => []
  | s, i, delivery :: rest =>
    match unmarshaller delivery.Body with
    | .error err => [Event.stderr ("failed to decode delivery: " ++ err ++ "\n")]
    | .ok rawT =>
      Event.handler i rawT (handler s rawT).1 ::
        ((ackDispatch (handler s rawT).1 i delivery).1 ++
          if (ackDispatch (T := T) (handler s rawT).1 i delivery).2 then
            consumeLoop handler unmarshaller (handler s rawT).2 (i + 1) rest
          else [])

/-- Result of `subscribe`: the error returned to the caller (`none` is nil), the setup
calls made, and the trace of the goroutine when one was started. -/
structure SubscribeResult (T : Type) where
  err : Option Err
  calls : List Call
  loop : Option (List (Event T))

/-- Source: `subscribe` (pubsub.go 112-170). `s0` is the state of the handler closure
when the subscription is made. -/
def subscribe {T σ : Type} (conn : Connection) (exchange queueName key : String)
    (qt : QueueType) (handler : σ → T → AckType × σ) (s0 : σ)
    (unmarshaller : Bytes → Except Err T) : SubscribeResult T :=
  match DeclareAndBind conn exchange queueName key qt with
  | (.error err, calls) => SubscribeResult.mk (some err) calls none
  | (.ok (channel, _), calls) =>
    let consume := Call.Consume queueName "" false false false false []
    match channel.Consume queueName "" false false false false [] with
    | .error err => SubscribeResult.mk (some err) (calls ++ [consume]) none
    | .ok deliveryCh =>
      SubscribeResult.mk none (calls ++ [consume])
        (some (consumeLoop handler unmarshaller s0 0 deliveryCh))

/-- Source: `SubscribeGlob` (pubsub.go 172-191); `gobDecode` stands for writing the body
into a fresh buffer and running `gob.NewDecoder(&buf).Decode(&rawT)`. -/
def SubscribeGlob {T σ : Type} (gobDecode : Bytes → Except Err T)
    (conn : Connection) (exchange queueName key : String)
    (qt : QueueType) (handler : σ → T → AckType × σ) (s0 : σ) : SubscribeResult T :=
  let unmarshaller := fun (body : Bytes) => gobDecode body
  subscribe conn exchange queueName key qt handler s0 unmarshaller

/-- Source: `SubscribeJSON` (pubsub.go 193-208); `jsonUnmarshal` stands for
`json.Unmarshal(body, &rawT)`. -/
def SubscribeJSON {T σ : Type} (jsonUnmarshal : Bytes → Except Err T)
    (conn : Connection) (exchange queueName key : String)
    (qt : QueueType) (handler : σ → T → AckType × σ) (s0 : σ) : SubscribeResult T :=
  let unmarshaller := fun (body : Bytes) => jsonUnmarshal body
  subscribe conn exchange queueName key qt handler s0 unmarshaller

/-- The acknowledgment call that the specification assigns to a handler decision
(section 4.3, step 4): `Ack` is acknowledge, `NackRequeue` is negative-acknowledge with
requeue, `NackDiscard` is negative-acknowledge without requeue, each for the single
delivery; no call is specified for any other value. Written from the specification, to be
compared with what `ackDispatch` does. -/
def specCall (decision : AckType) : Option AckCall :=
  if decision = Ack then some (AckCall.Ack false)
  else if decision = NackRequeue then some (AckCall.Nack false true)
  else if decision = NackDiscard then some (AckCall.Nack false false)
  else none

/-- Order of the events of two deliveries: an event of an earlier delivery comes first,
and within one delivery the handler invocation comes before the acknowledgment call. -/
def Event.before {T : Type} (a b : Event T) : Prop :=
  ∀ i j, a.idx = some i → b.idx = some j →
    i < j ∨ (i = j ∧ a.ackFor = none ∧ b.ackFor = some j)

/-- The queue declarations among a list of calls. -/
def queueDeclares : List Call → List Call :=
  List.filter (fun c => match c with
    | Call.QueueDeclare _ _ _ _ _ _ => true
    | _ => false)

/-! ## Concrete inputs used to exercise the definitions -/

/-- A channel on which every operation succeeds; its feed carries the given deliveries. -/
def okChannel (ds : List Delivery) : Channel :=
  Channel.mk (fun name _ _ _ _ _ => .ok (Queue.mk name 0 0)) (fun _ _ _ _ _ => none)
    (fun _ _ _ _ _ _ _ => .ok ds) (fun _ _ _ _ _ => none)

/-- A channel on which the queue declaration is refused. -/
def declareFailChannel : Channel :=
  Channel.mk (fun _ _ _ _ _ _ => .error "declare refused") (fun _ _ _ _ _ => none)
    (fun _ _ _ _ _ _ _ => .ok []) (fun _ _ _ _ _ => none)

/-- A channel on which the binding is refused. -/
def bindFailChannel : Channel :=
  Channel.mk (fun name _ _ _ _ _ => .ok (Queue.mk name 0 0)) (fun _ _ _ _ _ => some "bind refused")
    (fun _ _ _ _ _ _ _ => .ok []) (fun _ _ _ _ _ => none)

/-- A channel on which the consumption feed cannot be started and sends fail. -/
def consumeFailChannel : Channel :=
  Channel.mk (fun name _ _ _ _ _ => .ok (Queue.mk name 0 0)) (fun _ _ _ _ _ => none)
    (fun _ _ _ _ _ _ _ => .error "consume refused") (fun _ _ _ _ _ => some "channel closed")

/-- An encoder of numbers that rejects zero. -/
def byteEncoder : Nat → Except Err Bytes
  | 0 => .error "unsupported"
  | n => .ok [n]

/-- A delivery on which every acknowledgment call succeeds. -/
def okDelivery (body : Bytes) : Delivery :=
  Delivery.mk body (fun _ => none) (fun _ _ => none)

/-- A delivery on which every acknowledgment call fails with the given error. -/
def failingDelivery (body : Bytes) (e : Err) : Delivery :=
  Delivery.mk body (fun _ => some e) (fun _ _ => some e)

/-- A decoder for one-byte bodies: the byte is the value, anything else is malformed. -/
def byteDecoder : Bytes → Except Err Nat
  | [n] => .ok n
  | _ => .error "malformed"

/-- A stateless handler that returns the decoded number as its decision. -/
def echoHandler : Unit → Nat → AckType × Unit :=
  fun _ n => ((n : Int), ())

/-- A handler that counts its invocations and always acknowledges. -/
def countingHandler : Nat → Nat → AckType × Nat :=
  fun s _ => (Ack, s + 1)

theorem consumeLoop_run_all_decisions : consumeLoop echoHandler byteDecoder () 0
    [okDelivery [0], okDelivery [1], okDelivery [2], okDelivery [7], okDelivery [0]] =
    [Event.handler 0 0 0, Event.call 0 (AckCall.Ack false),
     Event.handler 1 1 1, Event.call 1 (AckCall.Nack false true),
     Event.handler 2 2 2, Event.call 2 (AckCall.Nack false false),
     Event.handler 3 7 7,
     Event.handler 4 0 0, Event.call 4 (AckCall.Ack false)] := by decide

theorem consumeLoop_run_decode_failure : consumeLoop echoHandler byteDecoder () 0
    [okDelivery [0], okDelivery [], okDelivery [2]] =
    [Event.handler 0 0 0, Event.call 0 (AckCall.Ack false),
     Event.stderr "failed to decode delivery: malformed\n"] := by decide

theorem consumeLoop_run_failed_call : consumeLoop echoHandler byteDecoder () 0
    [failingDelivery [1] "closed", okDelivery [2]] =
    [Event.handler 0 1 1, Event.call 0 (AckCall.Nack false true),
     Event.stderr "failed to negative acknowledge and requeue delivery: closed\n"] := by
  decide

/-! ## Queue declaration, publishing and subscription setup -/

/-- C4: whenever `DeclareAndBind` obtains a channel it makes exactly one queue declaration,
for the given queue name, with durable = (qt == DurableQueue), autoDelete = !durable,
exclusive = !durable, noWait = false and the one-entry table
x-dead-letter-exchange = peril_dlx. This holds for every integer `qt`: `DurableQueue`
gives (true, false, false), `TransientQueue` gives (false, true, true). -/
theorem DeclareAndBind_queue_flags (conn : Connection) (ch : Channel)
    (exchange queueName key : String) (qt : QueueType) (hch : conn.Channel = .ok ch) :
    ∃ durable autoDelete exclusive : Bool,
      queueDeclares (DeclareAndBind conn exchange queueName key qt).2 =
        [Call.QueueDeclare queueName durable autoDelete exclusive false
          [("x-dead-letter-exchange", "peril_dlx")]] ∧
      (durable = true ↔ qt = DurableQueue) ∧
      autoDelete = (!durable) ∧ exclusive = (!durable) ∧ autoDelete = exclusive ∧
      (qt = DurableQueue → (durable, autoDelete, exclusive) = (true, false, false)) ∧
      (qt = TransientQueue → (durable, autoDelete, exclusive) = (false, true, true)) := by
  refine ⟨decide (qt = DurableQueue), !decide (qt = DurableQueue),
    !decide (qt = DurableQueue), ?_, by simp, rfl, rfl, rfl, ?_, ?_⟩
  · unfold DeclareAndBind
    rw [hch]
    dsimp only
    cases ch.QueueDeclare queueName (decide (qt = DurableQueue)) (!decide (qt = DurableQueue))
        (!decide (qt = DurableQueue)) false [("x-dead-letter-exchange", "peril_dlx")] with
    | error e => simp [queueDeclares]
    | ok q =>
      dsimp only
      cases ch.QueueBind queueName key exchange false [] <;> simp [queueDeclares]
  · intro h
    simp [h]
  · intro h
    simp [h, TransientQueue, DurableQueue]

/-- Witness for C4: a queue type outside the two named constants is declared transient. -/
theorem DeclareAndBind_queue_flags_witness :
    ∃ durable autoDelete exclusive : Bool,
      queueDeclares (DeclareAndBind (Connection.mk (.ok (okChannel []))) "peril_topic" "q" "k" 5).2 =
        [Call.QueueDeclare "q" durable autoDelete exclusive false
          [("x-dead-letter-exchange", "peril_dlx")]] ∧
      (durable = true ↔ (5 : QueueType) = DurableQueue) ∧
      autoDelete = (!durable) ∧ exclusive = (!durable) ∧ autoDelete = exclusive ∧
      ((5 : QueueType) = DurableQueue → (durable, autoDelete, exclusive) = (true, false, false)) ∧
      ((5 : QueueType) = TransientQueue →
        (durable, autoDelete, exclusive) = (false, true, true)) :=
  DeclareAndBind_queue_flags (Connection.mk (.ok (okChannel []))) (okChannel [])
    "peril_topic" "q" "k" 5 rfl

/-- C6: `PublishJSON` and `PublishGob` return the encoding error and send nothing when
encoding fails; otherwise they make exactly one send, to the given exchange and key, with
mandatory = false and immediate = false, the encoded bytes as body and the content type of
the encoding, and they return the result of that send unchanged. -/
theorem Publish_encode_then_send {T : Type} (jsonMarshal gobEncode : T → Except Err Bytes)
    (ch : Channel) (exchange key : String) (val : T) :
    (∀ e, jsonMarshal val = .error e →
      PublishJSON jsonMarshal ch exchange key val = (some e, [])) ∧
    (∀ b, jsonMarshal val = .ok b →
      PublishJSON jsonMarshal ch exchange key val =
        (ch.PublishWithContext exchange key false false (Publishing.mk "application/json" b),
          [Call.PublishWithContext exchange key false false
            (Publishing.mk "application/json" b)])) ∧
    (∀ e, gobEncode val = .error e →
      PublishGob gobEncode ch exchange key val = (some e, [])) ∧
    (∀ b, gobEncode val = .ok b →
      PublishGob gobEncode ch exchange key val =
        (ch.PublishWithContext exchange key false false (Publishing.mk "application/gob" b),
          [Call.PublishWithContext exchange key false false
            (Publishing.mk "application/gob" b)])) := by
  refine ⟨?_, ?_, ?_, ?_⟩
  · intro e h
    simp [PublishJSON, h]
  · intro b h
    simp [PublishJSON, h, publish]
  · intro e h
    simp [PublishGob, h]
  · intro b h
    simp [PublishGob, h, publish]

/-- Witness for C6: a value the encoder rejects, and a value sent on a closed channel. -/
theorem Publish_encode_then_send_witness :
    PublishJSON byteEncoder consumeFailChannel "ex" "k" 0 = (some "unsupported", []) ∧
    PublishGob byteEncoder consumeFailChannel "ex" "k" 3 =
      (some "channel closed",
        [Call.PublishWithContext "ex" "k" false false (Publishing.mk "application/gob" [3])]) :=
  ⟨(Publish_encode_then_send byteEncoder byteEncoder consumeFailChannel "ex" "k" 0).1
      "unsupported" rfl,
    (Publish_encode_then_send byteEncoder byteEncoder consumeFailChannel "ex" "k" 3).2.2.2
      [3] rfl⟩

/-- C7: when a setup step of `subscribe` fails with error `e` (opening the channel,
declaring the queue, binding it, starting the feed), `subscribe` returns exactly `e`, makes
no later setup call and starts no consumption loop (so the handler is never invoked); it
returns nil exactly when all four steps succeed, and then the loop is started on the
deliveries of the feed. `SubscribeJSON` and `SubscribeGlob` are `subscribe` with their
decoder. -/
theorem subscribe_setup_errors {T σ : Type} (conn : Connection)
    (exchange queueName key : String) (qt : QueueType) (handler : σ → T → AckType × σ)
    (s0 : σ) (unmarshaller : Bytes → Except Err T) :
    (∀ e, conn.Channel = .error e →
      subscribe conn exchange queueName key qt handler s0 unmarshaller =
        SubscribeResult.mk (some e) [Call.Channel] none) ∧
    (∀ ch e, conn.Channel = .ok ch →
      ch.QueueDeclare queueName (decide (qt = DurableQueue)) (!decide (qt = DurableQueue))
        (!decide (qt = DurableQueue)) false [("x-dead-letter-exchange", "peril_dlx")] =
          .error e →
      subscribe conn exchange queueName key qt handler s0 unmarshaller =
        SubscribeResult.mk (some e)
          [Call.Channel,
            Call.QueueDeclare queueName (decide (qt = DurableQueue))
              (!decide (qt = DurableQueue)) (!decide (qt = DurableQueue)) false
              [("x-dead-letter-exchange", "peril_dlx")]] none) ∧
    (∀ ch q e, conn.Channel = .ok ch →
      ch.QueueDeclare queueName (decide (qt = DurableQueue)) (!decide (qt = DurableQueue))
        (!decide (qt = DurableQueue)) false [("x-dead-letter-exchange", "peril_dlx")] =
          .ok q →
      ch.QueueBind queueName key exchange false [] = some e →
      subscribe conn exchange queueName key qt handler s0 unmarshaller =
        SubscribeResult.mk (some e)
          [Call.Channel,
            Call.QueueDeclare queueName (decide (qt = DurableQueue))
              (!decide (qt = DurableQueue)) (!decide (qt = DurableQueue)) false
              [("x-dead-letter-exchange", "peril_dlx")],
            Call.QueueBind queueName key exchange false []] none) ∧
    (∀ ch q e, conn.Channel = .ok ch →
      ch.QueueDeclare queueName (decide (qt = DurableQueue)) (!decide (qt = DurableQueue))
        (!decide (qt = DurableQueue)) false [("x-dead-letter-exchange", "peril_dlx")] =
          .ok q →
      ch.QueueBind queueName key exchange false [] = none →
      ch.Consume queueName "" false false false false [] = .error e →
      subscribe conn exchange queueName key qt handler s0 unmarshaller =
        SubscribeResult.mk (some e)
          [Call.Channel,
            Call.QueueDeclare queueName (decide (qt = DurableQueue))
              (!decide (qt = DurableQueue)) (!decide (qt = DurableQueue)) false
              [("x-dead-letter-exchange", "peril_dlx")],
            Call.QueueBind queueName key exchange false [],
            Call.Consume queueName "" false false false false []] none) ∧
    ((subscribe conn exchange queueName key qt handler s0 unmarshaller).err = none ↔
      ∃ ch q ds, conn.Channel = .ok ch ∧
        ch.QueueDeclare queueName (decide (qt = DurableQueue)) (!decide (qt = DurableQueue))
          (!decide (qt = DurableQueue)) false [("x-dead-letter-exchange", "peril_dlx")] =
            .ok q ∧
        ch.QueueBind queueName key exchange false [] = none ∧
        ch.Consume queueName "" false false false false [] = .ok ds ∧
        (subscribe conn exchange queueName key qt handler s0 unmarshaller).loop =
          some (consumeLoop handler unmarshaller s0 0 ds)) ∧
    (∀ (decode : Bytes → Except Err T),
      SubscribeJSON decode conn exchange queueName key qt handler s0 =
        subscribe conn exchange queueName key qt handler s0 decode ∧
      SubscribeGlob decode conn exchange queueName key qt handler s0 =
        subscribe conn exchange queueName key qt handler s0 decode) := by
  refine ⟨?_, ?_, ?_, ?_, ?_, ?_⟩
  · intro e h
    simp [subscribe, DeclareAndBind, h]
  · intro ch e h hd
    simp [subscribe, DeclareAndBind, h, hd]
  · intro ch q e h hd hb
    simp [subscribe, DeclareAndBind, h, hd, hb]
  · intro ch q e h hd hb hc
    simp [subscribe, DeclareAndBind, h, hd, hb, hc]
  · cases h : conn.Channel with
    | error e => simp [subscribe, DeclareAndBind, h]
    | ok ch =>
      cases hd : ch.QueueDeclare queueName (decide (qt = DurableQueue))
          (!decide (qt = DurableQueue)) (!decide (qt = DurableQueue)) false
          [("x-dead-letter-exchange", "peril_dlx")] with
      | error e => simp [subscribe, DeclareAndBind, h, hd]
      | ok q =>
        cases hb : ch.QueueBind queueName key exchange false [] with
        | some e => simp [subscribe, DeclareAndBind, h, hd, hb]
        | none =>
          cases hc : ch.Consume queueName "" false false false false [] with
          | error e => simp [subscribe, DeclareAndBind, h, hd, hb, hc]
          | ok ds => simp [subscribe, DeclareAndBind, h, hd, hb, hc]
  · intro decode
    exact ⟨rfl, rfl⟩

/-- Witness for C7: the binding is refused, so `subscribe` returns that error after three
setup calls and starts no loop. -/
theorem subscribe_setup_errors_witness :
    subscribe (Connection.mk (.ok bindFailChannel)) "ex" "q" "k" TransientQueue
        echoHandler () byteDecoder =
      SubscribeResult.mk (some "bind refused")
        [Call.Channel,
          Call.QueueDeclare "q" (decide (TransientQueue = DurableQueue))
            (!decide (TransientQueue = DurableQueue)) (!decide (TransientQueue = DurableQueue))
            false [("x-dead-letter-exchange", "peril_dlx")],
          Call.QueueBind "q" "k" "ex" false []] none :=
  (subscribe_setup_errors (Connection.mk (.ok bindFailChannel)) "ex" "q" "k" TransientQueue
    echoHandler () byteDecoder).2.2.1 bindFailChannel (Queue.mk "q" 0 0) "bind refused"
    rfl rfl rfl

/-! ## The consumption loop: shape of one iteration -/

theorem ackDispatch_shape {T : Type} (a : AckType) (i : Nat) (d : Delivery) :
    (specCall a = none ∧ ackDispatch (T := T) a i d = ([], true)) ∨
    (∃ c, specCall a = some c ∧ d.invoke c = none ∧
      ackDispatch (T := T) a i d = ([Event.call i c], true)) ∨
    (∃ c e msg, specCall a = some c ∧ d.invoke c = some e ∧
      ackDispatch (T := T) a i d = ([Event.call i c, Event.stderr msg], false)) := by
  unfold ackDispatch specCall
  by_cases h0 : a = Ack
  · simp only [h0, if_true]
    cases hr : d.Ack false with
    | none => exact Or.inr (Or.inl ⟨_, rfl, by simp [Delivery.invoke, hr], rfl⟩)
    | some e => exact Or.inr (Or.inr ⟨_, e, _, rfl, by simp [Delivery.invoke, hr], rfl⟩)
  · by_cases h1 : a = NackRequeue
    · simp only [h0, h1, if_true, if_false]
      cases hr : d.Nack false true with
      | none => exact Or.inr (Or.inl ⟨_, rfl, by simp [Delivery.invoke, hr], rfl⟩)
      | some e => exact Or.inr (Or.inr ⟨_, e, _, rfl, by simp [Delivery.invoke, hr], rfl⟩)
    · by_cases h2 : a = NackDiscard
      · simp only [h0, h1, h2, if_true, if_false]
        cases hr : d.Nack false false with
        | none => exact Or.inr (Or.inl ⟨_, rfl, by simp [Delivery.invoke, hr], rfl⟩)
        | some e => exact Or.inr (Or.inr ⟨_, e, _, rfl, by simp [Delivery.invoke, hr], rfl⟩)
      · simp [h0, h1, h2]

theorem consumeLoop_cons_shape {T σ : Type} (h : σ → T → AckType × σ)
    (u : Bytes → Except Err T) (s : σ) (i : Nat) (d : Delivery) (rest : List Delivery) :
    (∃ e, u d.Body = .error e ∧
      consumeLoop h u s i (d :: rest) =
        [Event.stderr ("failed to decode delivery: " ++ e ++ "\n")]) ∨
    (∃ v, u d.Body = .ok v ∧
      ((specCall (h s v).1 = none ∧
        consumeLoop h u s i (d :: rest) =
          Event.handler i v (h s v).1 :: consumeLoop h u (h s v).2 (i + 1) rest) ∨
       (∃ c, specCall (h s v).1 = some c ∧ d.invoke c = none ∧
        consumeLoop h u s i (d :: rest) =
          Event.handler i v (h s v).1 :: Event.call i c ::
            consumeLoop h u (h s v).2 (i + 1) rest) ∨
       (∃ c e msg, specCall (h s v).1 = some c ∧ d.invoke c = some e ∧
        consumeLoop h u s i (d :: rest) =
          [Event.handler i v (h s v).1, Event.call i c, Event.stderr msg]))) := by
  cases hu : u d.Body with
  | error e =>
    left
    refine ⟨e, ?_, ?_⟩
    · trivial
    · simp [consumeLoop, hu]
  | ok v =>
    right
    refine ⟨v, ?_, ?_⟩
    · trivial
    rcases ackDispatch_shape (T := T) (h s v).1 i d with ⟨hc, hd⟩ | ⟨c, hc, hi, hd⟩ |
      ⟨c, e, msg, hc, hi, hd⟩
    · left
      exact ⟨hc, by simp [consumeLoop, hu, hd]⟩
    · right; left
      exact ⟨c, hc, hi, by simp [consumeLoop, hu, hd]⟩
    · right; right
      exact ⟨c, e, msg, hc, hi, by simp [consumeLoop, hu, hd]⟩

theorem consumeLoop_idx_ge {T σ : Type} (h : σ → T → AckType × σ)
    (u : Bytes → Except Err T) (ds : List Delivery) :
    ∀ (s : σ) (i : Nat), ∀ ev ∈ consumeLoop h u s i ds, ∀ j, ev.idx = some j → i ≤ j := by
  induction ds with
  | nil => intro s i ev hev; simp [consumeLoop] at hev
  | cons d rest ih =>
    intro s i ev hev j hj
    rcases consumeLoop_cons_shape h u s i d rest with ⟨e, _, ht⟩ |
      ⟨v, _, ⟨_, ht⟩ | ⟨c, _, _, ht⟩ | ⟨c, e, msg, _, _, ht⟩⟩
    · rw [ht] at hev
      simp at hev
      subst hev
      simp [Event.idx] at hj
    · rw [ht] at hev
      rcases List.mem_cons.1 hev with rfl | hev
      · simp [Event.idx] at hj; omega
      · have := ih _ _ ev hev j hj
        omega
    · rw [ht] at hev
      rcases List.mem_cons.1 hev with rfl | hev
      · simp [Event.idx] at hj; omega
      · rcases List.mem_cons.1 hev with rfl | hev
        · simp [Event.idx] at hj; omega
        · have := ih _ _ ev hev j hj
          omega
    · rw [ht] at hev
      simp at hev
      rcases hev with rfl | rfl | rfl <;> simp [Event.idx] at hj <;> omega

theorem consumeLoop_pairwise {T σ : Type} (h : σ → T → AckType × σ)
    (u : Bytes → Except Err T) (ds : List Delivery) :
    ∀ (s : σ) (i : Nat), List.Pairwise Event.before (consumeLoop h u s i ds) := by
  induction ds with
  | nil => intro s i; simp [consumeLoop]
  | cons d rest ih =>
    intro s i
    have hge := consumeLoop_idx_ge h u rest
    rcases consumeLoop_cons_shape h u s i d rest with ⟨e, _, ht⟩ |
      ⟨v, _, ⟨_, ht⟩ | ⟨c, _, _, ht⟩ | ⟨c, e, msg, _, _, ht⟩⟩
    · rw [ht]; simp
    · rw [ht]
      refine List.pairwise_cons.2 ⟨?_, ih _ _⟩
      intro b hb i1 j1 h1 h2
      have := hge _ _ b hb j1 h2
      simp [Event.idx] at h1
      left; omega
    · rw [ht]
      refine List.pairwise_cons.2 ⟨?_, List.pairwise_cons.2 ⟨?_, ih _ _⟩⟩
      · intro b hb i1 j1 h1 h2
        simp [Event.idx] at h1
        rcases List.mem_cons.1 hb with rfl | hb
        · simp [Event.idx] at h2
          right
          exact ⟨by omega, rfl, by simp [Event.ackFor, h2]⟩
        · have := hge _ _ b hb j1 h2
          left; omega
      · intro b hb i1 j1 h1 h2
        have := hge _ _ b hb j1 h2
        simp [Event.idx] at h1
        left; omega
    · rw [ht]
      refine List.pairwise_cons.2 ⟨?_, List.pairwise_cons.2 ⟨?_, by simp⟩⟩
      · intro b hb i1 j1 h1 h2
        simp [Event.idx] at h1
        simp at hb
        rcases hb with rfl | rfl
        · simp [Event.idx] at h2
          right
          exact ⟨by omega, rfl, by simp [Event.ackFor, h2]⟩
        · simp [Event.idx] at h2
      · intro b hb i1 j1 h1 h2
        simp at hb
        subst hb
        simp [Event.idx] at h2

/-! ## The consumption loop: where an event comes from -/

/-- From a handler invocation on, the trace is the run of the loop from that delivery. -/
theorem consumeLoop_handler_suffix {T σ : Type} (h : σ → T → AckType × σ)
    (u : Bytes → Except Err T) (ds : List Delivery) :
    ∀ (s : σ) (i0 p j : Nat) (v : T) (a : AckType),
      (consumeLoop h u s i0 ds)[p]? = some (Event.handler j v a) →
      ∃ (s1 : σ) (d : Delivery) (rest : List Delivery),
        i0 ≤ j ∧ ds.drop (j - i0) = d :: rest ∧ u d.Body = .ok v ∧ (h s1 v).1 = a ∧
        (consumeLoop h u s i0 ds).drop p = consumeLoop h u s1 j (d :: rest) := by
  induction ds with
  | nil => intro s i0 p j v a hp; simp [consumeLoop] at hp
  | cons d rest ih =>
    intro s i0 p j v a hp
    have step : ∀ (s2 : σ) (p1 : Nat),
        (consumeLoop h u s2 (i0 + 1) rest)[p1]? = some (Event.handler j v a) →
        ∃ (s1 : σ) (d1 : Delivery) (rest1 : List Delivery),
          i0 ≤ j ∧ (d :: rest).drop (j - i0) = d1 :: rest1 ∧ u d1.Body = .ok v ∧
          (h s1 v).1 = a ∧
          (consumeLoop h u s2 (i0 + 1) rest).drop p1 = consumeLoop h u s1 j (d1 :: rest1) := by
      intro s2 p1 hp1
      obtain ⟨s1, d1, rest1, hle, hdrop, hu1, ha, hsuf⟩ := ih s2 (i0 + 1) p1 j v a hp1
      refine ⟨s1, d1, rest1, by omega, ?_, hu1, ha, hsuf⟩
      have hj : j - i0 = (j - (i0 + 1)) + 1 := by omega
      rw [hj, List.drop_succ_cons]
      exact hdrop
    rcases consumeLoop_cons_shape h u s i0 d rest with ⟨e, _, ht⟩ |
      ⟨v0, hv0, ⟨_, ht⟩ | ⟨c, _, _, ht⟩ | ⟨c, e, msg, _, _, ht⟩⟩
    · rw [ht] at hp
      cases p with
      | zero => simp at hp
      | succ p => simp at hp
    · cases p with
      | zero =>
        rw [ht] at hp
        simp at hp
        obtain ⟨rfl, rfl, rfl⟩ := hp
        exact ⟨s, d, rest, le_refl _, by simp, hv0, rfl, by simp⟩
      | succ p =>
        rw [ht] at hp ⊢
        simp only [List.getElem?_cons_succ] at hp
        simpa using step _ p hp
    · cases p with
      | zero =>
        rw [ht] at hp
        simp at hp
        obtain ⟨rfl, rfl, rfl⟩ := hp
        exact ⟨s, d, rest, le_refl _, by simp, hv0, rfl, by simp⟩
      | succ p =>
        cases p with
        | zero =>
          rw [ht] at hp
          simp at hp
        | succ p =>
          rw [ht] at hp ⊢
          simp only [List.getElem?_cons_succ] at hp
          simpa using step _ p hp
    · cases p with
      | zero =>
        rw [ht] at hp
        simp at hp
        obtain ⟨rfl, rfl, rfl⟩ := hp
        exact ⟨s, d, rest, le_refl _, by simp, hv0, rfl, by simp⟩
      | succ p =>
        rw [ht] at hp
        cases p with
        | zero => simp at hp
        | succ p =>
          cases p with
          | zero => simp at hp
          | succ p => simp at hp

/-- Every acknowledgment call in the trace stands right after the handler invocation for
the same delivery, and is the call the specification assigns to the decision returned. -/
theorem consumeLoop_call_preceded {T σ : Type} (h : σ → T → AckType × σ)
    (u : Bytes → Except Err T) (ds : List Delivery) :
    ∀ (s : σ) (i0 q j : Nat) (c : AckCall),
      (consumeLoop h u s i0 ds)[q]? = some (Event.call j c) →
      ∃ (q1 : Nat) (v : T) (a : AckType), q = q1 + 1 ∧
        (consumeLoop h u s i0 ds)[q1]? = some (Event.handler j v a) ∧ specCall a = some c := by
  induction ds with
  | nil => intro s i0 q j c hq; simp [consumeLoop] at hq
  | cons d rest ih =>
    intro s i0 q j c hq
    rcases consumeLoop_cons_shape h u s i0 d rest with ⟨e, _, ht⟩ |
      ⟨v0, hv0, ⟨_, ht⟩ | ⟨c0, hc0, _, ht⟩ | ⟨c0, e, msg, hc0, _, ht⟩⟩
    · rw [ht] at hq
      cases q with
      | zero => simp at hq
      | succ q => simp at hq
    · rw [ht] at hq ⊢
      cases q with
      | zero => simp at hq
      | succ q =>
        simp only [List.getElem?_cons_succ] at hq
        obtain ⟨q1, v, a, rfl, h1, h2⟩ := ih _ _ q j c hq
        exact ⟨q1 + 1, v, a, rfl, by simpa using h1, h2⟩
    · rw [ht] at hq ⊢
      cases q with
      | zero => simp at hq
      | succ q =>
        cases q with
        | zero =>
          simp at hq
          obtain ⟨rfl, rfl⟩ := hq
          exact ⟨0, v0, _, rfl, by simp, hc0⟩
        | succ q =>
          simp only [List.getElem?_cons_succ] at hq
          obtain ⟨q1, v, a, rfl, h1, h2⟩ := ih _ _ q j c hq
          exact ⟨q1 + 2, v, a, rfl, by simpa using h1, h2⟩
    · rw [ht] at hq ⊢
      cases q with
      | zero => simp at hq
      | succ q =>
        cases q with
        | zero =>
          simp at hq
          obtain ⟨rfl, rfl⟩ := hq
          exact ⟨0, v0, _, rfl, by simp, hc0⟩
        | succ q =>
          cases q with
          | zero => simp at hq
          | succ q => simp at hq

/-- What follows a handler invocation whose decision has a specified call: that call, and
then either the rest of the loop or, when the call fails, one log line and nothing more. -/
theorem consumeLoop_handler_next {T σ : Type} (h : σ → T → AckType × σ)
    (u : Bytes → Except Err T) (ds : List Delivery) (s : σ) (i0 p j : Nat) (v : T)
    (a : AckType) (c : AckCall)
    (hp : (consumeLoop h u s i0 ds)[p]? = some (Event.handler j v a))
    (hc : specCall a = some c) :
    ∃ (d : Delivery), i0 ≤ j ∧ ds[j - i0]? = some d ∧
      (consumeLoop h u s i0 ds)[p + 1]? = some (Event.call j c) ∧
      ((d.invoke c = none ∧ ∃ s1,
          (consumeLoop h u s i0 ds).drop (p + 2) =
            consumeLoop h u s1 (j + 1) (ds.drop (j - i0 + 1))) ∨
       (∃ e msg, d.invoke c = some e ∧
          (consumeLoop h u s i0 ds).drop (p + 2) = [Event.stderr msg])) := by
  obtain ⟨s1, d, rest, hle, hdrop, hu1, ha, hsuf⟩ :=
    consumeLoop_handler_suffix h u ds s i0 p j v a hp
  have hd : ds[j - i0]? = some d := by
    have := congrArg (fun l => l[0]?) hdrop
    simpa using this
  have hrest : ds.drop (j - i0 + 1) = rest := by
    have := congrArg (fun l => l.drop 1) hdrop
    simpa [Nat.add_comm] using this
  have hnext : ∀ k, (consumeLoop h u s i0 ds)[p + k]? = (consumeLoop h u s1 j (d :: rest))[k]? := by
    intro k
    rw [← hsuf, List.getElem?_drop]
  have hdrop2 : (consumeLoop h u s i0 ds).drop (p + 2) =
      (consumeLoop h u s1 j (d :: rest)).drop 2 := by
    rw [← hsuf, List.drop_drop]
  refine ⟨d, hle, hd, ?_⟩
  rcases consumeLoop_cons_shape h u s1 j d rest with ⟨e, he, _⟩ |
    ⟨v0, hv0, ⟨hn, _⟩ | ⟨c0, hc0, hi, ht⟩ | ⟨c0, e, msg, hc0, hi, ht⟩⟩
  · rw [hu1] at he
    cases he
  · rw [hu1] at hv0
    cases hv0
    rw [ha, hc] at hn
    cases hn
  · rw [hu1] at hv0
    cases hv0
    rw [ha, hc] at hc0
    cases hc0
    refine ⟨?_, Or.inl ⟨hi, (h s1 v).2, ?_⟩⟩
    · rw [hnext 1, ht]; simp [ha]
    · rw [hdrop2, ht, hrest]; simp
  · rw [hu1] at hv0
    cases hv0
    rw [ha, hc] at hc0
    cases hc0
    refine ⟨?_, Or.inr ⟨e, msg, hi, ?_⟩⟩
    · rw [hnext 1, ht]; simp [ha]
    · rw [hdrop2, ht]; simp

/-- What follows a handler invocation whose decision has no specified call: the rest of
the loop, on the deliveries after this one. -/
theorem consumeLoop_handler_next_none {T σ : Type} (h : σ → T → AckType × σ)
    (u : Bytes → Except Err T) (ds : List Delivery) (s : σ) (i0 p j : Nat) (v : T)
    (a : AckType)
    (hp : (consumeLoop h u s i0 ds)[p]? = some (Event.handler j v a))
    (hc : specCall a = none) :
    ∃ s1, (consumeLoop h u s i0 ds).drop (p + 1) =
      consumeLoop h u s1 (j + 1) (ds.drop (j - i0 + 1)) := by
  obtain ⟨s1, d, rest, hle, hdrop, hu1, ha, hsuf⟩ :=
    consumeLoop_handler_suffix h u ds s i0 p j v a hp
  have hrest : ds.drop (j - i0 + 1) = rest := by
    have := congrArg (fun l => l.drop 1) hdrop
    simpa [Nat.add_comm] using this
  have hdrop1 : (consumeLoop h u s i0 ds).drop (p + 1) =
      (consumeLoop h u s1 j (d :: rest)).drop 1 := by
    rw [← hsuf, List.drop_drop]
  rcases consumeLoop_cons_shape h u s1 j d rest with ⟨e, he, _⟩ |
    ⟨v0, hv0, ⟨_, ht⟩ | ⟨c0, hc0, _, _⟩ | ⟨c0, e, msg, hc0, _, _⟩⟩
  · rw [hu1] at he
    cases he
  · rw [hu1] at hv0
    cases hv0
    exact ⟨(h s1 v).2, by rw [hdrop1, ht, hrest]; simp⟩
  · rw [hu1] at hv0
    cases hv0
    rw [ha, hc] at hc0
    cases hc0
  · rw [hu1] at hv0
    cases hv0
    rw [ha, hc] at hc0
    cases hc0

/-- Events at two positions of the trace are ordered by `Event.before`. -/
theorem consumeLoop_order {T σ : Type} (h : σ → T → AckType × σ)
    (u : Bytes → Except Err T) (ds : List Delivery) (s : σ) (i0 p q : Nat) (a b : Event T)
    (hpq : p < q) (hp : (consumeLoop h u s i0 ds)[p]? = some a)
    (hq : (consumeLoop h u s i0 ds)[q]? = some b) : Event.before a b := by
  obtain ⟨hp1, rfl⟩ := List.getElem?_eq_some.1 hp
  obtain ⟨hq1, rfl⟩ := List.getElem?_eq_some.1 hq
  exact List.pairwise_iff_getElem.1 (consumeLoop_pairwise h u ds s i0) p q hp1 hq1 hpq

/-- The handler is invoked at most once for a delivery. -/
theorem consumeLoop_handler_unique {T σ : Type} (h : σ → T → AckType × σ)
    (u : Bytes → Except Err T) (ds : List Delivery) (s : σ) (i0 p q j : Nat) (v w : T)
    (a b : AckType)
    (hp : (consumeLoop h u s i0 ds)[p]? = some (Event.handler j v a))
    (hq : (consumeLoop h u s i0 ds)[q]? = some (Event.handler j w b)) : p = q := by
  rcases Nat.lt_trichotomy p q with hlt | heq | hgt
  · have := consumeLoop_order h u ds s i0 p q _ _ hlt hp hq j j rfl rfl
    simp [Event.ackFor] at this
  · exact heq
  · have := consumeLoop_order h u ds s i0 q p _ _ hgt hq hp j j rfl rfl
    simp [Event.ackFor] at this

theorem specCall_eq_some (a : AckType) (c : AckCall) :
    specCall a = some c ↔
      (a = Ack ∧ c = AckCall.Ack false) ∨ (a = NackRequeue ∧ c = AckCall.Nack false true) ∨
      (a = NackDiscard ∧ c = AckCall.Nack false false) := by
  unfold specCall
  by_cases h0 : a = Ack
  · subst h0
    simp [Ack, NackRequeue, NackDiscard, eq_comm]
  · by_cases h1 : a = NackRequeue
    · subst h1
      simp [Ack, NackRequeue, NackDiscard, eq_comm]
    · by_cases h2 : a = NackDiscard
      · subst h2
        simp [Ack, NackRequeue, NackDiscard, eq_comm]
      · simp [h0, h1, h2]

theorem specCall_eq_none (a : AckType) :
    specCall a = none ↔ a ≠ Ack ∧ a ≠ NackRequeue ∧ a ≠ NackDiscard := by
  unfold specCall
  by_cases h0 : a = Ack
  · simp [h0]
  · by_cases h1 : a = NackRequeue
    · subst h1
      simp [Ack, NackRequeue]
    · by_cases h2 : a = NackDiscard
      · subst h2
        simp [Ack, NackRequeue, NackDiscard]
      · simp [h0, h1, h2]

/-! ## Claims about the consumption loop -/

/-- C1: in the consumption loop, every handler invocation is for a delivery whose body
decoded to the value passed, and the decision it returns fixes the broker call issued for
that delivery: `Ack` is followed at once by `delivery.Ack(false)`, `NackRequeue` by
`delivery.Nack(false, true)`, `NackDiscard` by `delivery.Nack(false, false)`; and every
acknowledgment call in the trace is the one that stands right after the handler invocation
for its delivery and matches the decision returned there. -/
theorem consumeLoop_decision_gives_call {T σ : Type} (h : σ → T → AckType × σ)
    (u : Bytes → Except Err T) (s : σ) (ds : List Delivery) :
    (∀ p i v a, (consumeLoop h u s 0 ds)[p]? = some (Event.handler i v a) →
      (∃ d s1, ds[i]? = some d ∧ u d.Body = .ok v ∧ (h s1 v).1 = a) ∧
      (a = Ack →
        (consumeLoop h u s 0 ds)[p + 1]? = some (Event.call i (AckCall.Ack false))) ∧
      (a = NackRequeue →
        (consumeLoop h u s 0 ds)[p + 1]? = some (Event.call i (AckCall.Nack false true))) ∧
      (a = NackDiscard →
        (consumeLoop h u s 0 ds)[p + 1]? = some (Event.call i (AckCall.Nack false false)))) ∧
    (∀ q i c, (consumeLoop h u s 0 ds)[q]? = some (Event.call i c) →
      ∃ q1 v a, q = q1 + 1 ∧ (consumeLoop h u s 0 ds)[q1]? = some (Event.handler i v a) ∧
        ((a = Ack ∧ c = AckCall.Ack false) ∨ (a = NackRequeue ∧ c = AckCall.Nack false true) ∨
         (a = NackDiscard ∧ c = AckCall.Nack false false))) := by
  refine ⟨?_, ?_⟩
  · intro p i v a hp
    have next : ∀ c, specCall a = some c →
        (consumeLoop h u s 0 ds)[p + 1]? = some (Event.call i c) := by
      intro c hc
      obtain ⟨d, _, _, hn, _⟩ := consumeLoop_handler_next h u ds s 0 p i v a c hp hc
      exact hn
    refine ⟨?_, ?_, ?_, ?_⟩
    · obtain ⟨s1, d, rest, _, hdrop, hu1, ha, _⟩ :=
        consumeLoop_handler_suffix h u ds s 0 p i v a hp
      refine ⟨d, s1, ?_, hu1, ha⟩
      have := congrArg (fun l => l[0]?) hdrop
      simpa using this
    · intro ha
      exact next _ ((specCall_eq_some a _).2 (Or.inl ⟨ha, rfl⟩))
    · intro ha
      exact next _ ((specCall_eq_some a _).2 (Or.inr (Or.inl ⟨ha, rfl⟩)))
    · intro ha
      exact next _ ((specCall_eq_some a _).2 (Or.inr (Or.inr ⟨ha, rfl⟩)))
  · intro q i c hq
    obtain ⟨q1, v, a, hq1, hh, hc⟩ := consumeLoop_call_preceded h u ds s 0 q i c hq
    exact ⟨q1, v, a, hq1, hh, (specCall_eq_some a c).1 hc⟩

/-- Witness for C1: a handler that returns `NackRequeue` on the first delivery. -/
theorem consumeLoop_decision_gives_call_witness :
    (consumeLoop echoHandler byteDecoder () 0 [okDelivery [1], okDelivery [0]])[0 + 1]? =
      some (Event.call 0 (AckCall.Nack false true)) :=
  ((consumeLoop_decision_gives_call echoHandler byteDecoder ()
    [okDelivery [1], okDelivery [0]]).1 0 0 1 1 (by decide)).2.2.1 rfl

/-- C10: when the handler returns a value other than `Ack`, `NackRequeue` and
`NackDiscard` for a delivery, no acknowledgment call is issued for that delivery anywhere in
the trace, and what follows the handler invocation is the run of the loop on the deliveries
after this one: the loop goes on, and any log line that comes next is the decode failure of
the next delivery, not a report about this one. -/
theorem consumeLoop_unknown_decision {T σ : Type} (h : σ → T → AckType × σ)
    (u : Bytes → Except Err T) (s : σ) (ds : List Delivery) (p i : Nat) (v : T) (a : AckType)
    (hp : (consumeLoop h u s 0 ds)[p]? = some (Event.handler i v a))
    (h0 : a ≠ Ack) (h1 : a ≠ NackRequeue) (h2 : a ≠ NackDiscard) :
    (∀ (q : Nat) (c : AckCall), (consumeLoop h u s 0 ds)[q]? ≠ some (Event.call i c)) ∧
    (∃ s1, (consumeLoop h u s 0 ds).drop (p + 1) =
      consumeLoop h u s1 (i + 1) (ds.drop (i + 1))) ∧
    (∀ msg, (consumeLoop h u s 0 ds)[p + 1]? = some (Event.stderr msg) →
      ∃ d e, ds[i + 1]? = some d ∧ u d.Body = .error e) := by
  have hnone : specCall a = none := (specCall_eq_none a).2 ⟨h0, h1, h2⟩
  obtain ⟨s1, hs1⟩ := consumeLoop_handler_next_none h u ds s 0 p i v a hp hnone
  simp only [Nat.sub_zero] at hs1
  refine ⟨?_, ⟨s1, hs1⟩, ?_⟩
  · intro q c hq
    obtain ⟨q1, w, b, _, hh, hc⟩ := consumeLoop_call_preceded h u ds s 0 q i c hq
    have hpq := consumeLoop_handler_unique h u ds s 0 p q1 i v w a b hp hh
    subst hpq
    rw [hp] at hh
    cases hh
    rw [hnone] at hc
    cases hc
  · intro msg hmsg
    have hget : (consumeLoop h u s1 (i + 1) (ds.drop (i + 1)))[0]? = some (Event.stderr msg) := by
      rw [← hs1, List.getElem?_drop]
      exact hmsg
    cases hrest : ds.drop (i + 1) with
    | nil =>
      rw [hrest] at hget
      simp [consumeLoop] at hget
    | cons d rest =>
      rw [hrest] at hget
      have hd : ds[i + 1]? = some d := by
        have := congrArg (fun l => l[0]?) hrest
        simpa using this
      rcases consumeLoop_cons_shape h u s1 (i + 1) d rest with ⟨e, he, _⟩ |
        ⟨v0, _, ⟨_, ht⟩ | ⟨c0, _, _, ht⟩ | ⟨c0, e, m, _, _, ht⟩⟩
      · exact ⟨d, e, hd, he⟩
      · rw [ht] at hget
        simp at hget
      · rw [ht] at hget
        simp at hget
      · rw [ht] at hget
        simp at hget

/-- Witness for C10: the handler returns 7 on the first delivery; the loop goes on to the
second one. -/
theorem consumeLoop_unknown_decision_witness :
    (∀ (q : Nat) (c : AckCall),
      (consumeLoop echoHandler byteDecoder () 0 [okDelivery [7], okDelivery [0]])[q]? ≠
      some (Event.call 0 c)) ∧
    (∃ s1, (consumeLoop echoHandler byteDecoder () 0 [okDelivery [7], okDelivery [0]]).drop
        (0 + 1) =
      consumeLoop echoHandler byteDecoder s1 (0 + 1)
        ([okDelivery [7], okDelivery [0]].drop (0 + 1))) ∧
    (∀ msg, (consumeLoop echoHandler byteDecoder () 0
        [okDelivery [7], okDelivery [0]])[0 + 1]? = some (Event.stderr msg) →
      ∃ d e, [okDelivery [7], okDelivery [0]][0 + 1]? = some d ∧
        byteDecoder d.Body = .error e) :=
  consumeLoop_unknown_decision echoHandler byteDecoder () [okDelivery [7], okDelivery [0]]
    0 0 7 7 (by decide) (by decide) (by decide) (by decide)

/-- Every delivery decodes and every acknowledgment call that is issued succeeds: then the
handler is invoked on every delivery, in order, and nothing is written to standard error. -/
theorem consumeLoop_runs_to_end {T σ : Type} (h : σ → T → AckType × σ)
    (u : Bytes → Except Err T) (ds : List Delivery) :
    ∀ (s : σ) (i0 : Nat),
      (∀ d ∈ ds, ∃ v, u d.Body = .ok v) →
      (∀ j c d, Event.call j c ∈ consumeLoop h u s i0 ds → ds[j - i0]? = some d →
        d.invoke c = none) →
      ((consumeLoop h u s i0 ds).filterMap Event.handlerArg).map Prod.fst =
        List.range' i0 ds.length ∧
      ∀ ev ∈ consumeLoop h u s i0 ds, ev.isStderr = false := by
  induction ds with
  | nil => intro s i0 _ _; simp [consumeLoop]
  | cons d rest ih =>
    intro s i0 hdec hcall
    have hdec1 : ∀ d1 ∈ rest, ∃ v, u d1.Body = .ok v :=
      fun d1 hd1 => hdec d1 (List.mem_cons_of_mem _ hd1)
    have shift : ∀ (s2 : σ),
        (∀ ev ∈ consumeLoop h u s2 (i0 + 1) rest, ev ∈ consumeLoop h u s i0 (d :: rest)) →
        ∀ j c d1, Event.call j c ∈ consumeLoop h u s2 (i0 + 1) rest →
          rest[j - (i0 + 1)]? = some d1 → d1.invoke c = none := by
      intro s2 hsub j c d1 hmem hget
      have hge := consumeLoop_idx_ge h u rest s2 (i0 + 1) _ hmem j rfl
      refine hcall j c d1 (hsub _ hmem) ?_
      have hj : j - i0 = (j - (i0 + 1)) + 1 := by omega
      rw [hj, List.getElem?_cons_succ]
      exact hget
    rcases consumeLoop_cons_shape h u s i0 d rest with ⟨e, he, _⟩ |
      ⟨v0, _, ⟨_, ht⟩ | ⟨c0, _, _, ht⟩ | ⟨c0, e, msg, _, hi, ht⟩⟩
    · obtain ⟨v, hv⟩ := hdec d (List.mem_cons_self _ _)
      rw [hv] at he
      cases he
    · have hsub : ∀ ev ∈ consumeLoop h u (h s v0).2 (i0 + 1) rest,
          ev ∈ consumeLoop h u s i0 (d :: rest) := by
        intro ev hev
        rw [ht]
        exact List.mem_cons_of_mem _ hev
      obtain ⟨ih1, ih2⟩ := ih (h s v0).2 (i0 + 1) hdec1 (shift _ hsub)
      rw [ht]
      refine ⟨?_, ?_⟩
      · simp [Event.handlerArg, List.range'_succ, ih1]
      · intro ev hev
        rcases List.mem_cons.1 hev with rfl | hev
        · rfl
        · exact ih2 ev hev
    · have hsub : ∀ ev ∈ consumeLoop h u (h s v0).2 (i0 + 1) rest,
          ev ∈ consumeLoop h u s i0 (d :: rest) := by
        intro ev hev
        rw [ht]
        exact List.mem_cons_of_mem _ (List.mem_cons_of_mem _ hev)
      obtain ⟨ih1, ih2⟩ := ih (h s v0).2 (i0 + 1) hdec1 (shift _ hsub)
      rw [ht]
      refine ⟨?_, ?_⟩
      · simp [Event.handlerArg, List.range'_succ, ih1]
      · intro ev hev
        rcases List.mem_cons.1 hev with rfl | hev
        · rfl
        · rcases List.mem_cons.1 hev with rfl | hev
          · rfl
          · exact ih2 ev hev
    · have hmem : Event.call i0 c0 ∈ consumeLoop h u s i0 (d :: rest) := by
        rw [ht]; simp
      have := hcall i0 c0 d hmem (by simp)
      rw [this] at hi
      cases hi

/-- C8: if the acknowledgment call issued for a delivery fails, the loop writes one log
line and ends there: nothing else follows in the trace, so the handler is not invoked for
any later delivery and no further acknowledgment call is issued. If every body decodes and
no issued call fails, the handler is invoked on every delivery of the feed, in order, and
nothing is written to standard error. -/
theorem consumeLoop_stops_on_failed_call {T σ : Type} (h : σ → T → AckType × σ)
    (u : Bytes → Except Err T) (s : σ) (ds : List Delivery) :
    (∀ p i c d e, (consumeLoop h u s 0 ds)[p]? = some (Event.call i c) →
      ds[i]? = some d → d.invoke c = some e →
      ∃ msg, (consumeLoop h u s 0 ds).drop (p + 1) = [Event.stderr msg]) ∧
    ((∀ d ∈ ds, ∃ v, u d.Body = .ok v) →
      (∀ i c d, Event.call i c ∈ consumeLoop h u s 0 ds → ds[i]? = some d →
        d.invoke c = none) →
      ((consumeLoop h u s 0 ds).filterMap Event.handlerArg).map Prod.fst =
        List.range ds.length ∧
      ∀ ev ∈ consumeLoop h u s 0 ds, ev.isStderr = false) := by
  refine ⟨?_, ?_⟩
  · intro p i c d e hp hd hi
    obtain ⟨q1, v, a, rfl, hh, hc⟩ := consumeLoop_call_preceded h u ds s 0 p i c hp
    obtain ⟨d1, _, hd1, _, hok | ⟨e1, msg, _, hdrop⟩⟩ :=
      consumeLoop_handler_next h u ds s 0 q1 i v a c hh hc
    · simp only [Nat.sub_zero] at hd1
      rw [hd] at hd1
      cases hd1
      rw [hi] at hok
      exact absurd hok.1 (by simp)
    · exact ⟨msg, hdrop⟩
  · intro hdec hcall
    have := consumeLoop_runs_to_end h u ds s 0 hdec (by simpa using hcall)
    rwa [List.range_eq_range']

/-- Witness for C8: the first acknowledgment fails, so the second delivery is never
handled. -/
theorem consumeLoop_stops_on_failed_call_witness :
    ∃ msg, (consumeLoop echoHandler byteDecoder () 0
        [failingDelivery [0] "closed", okDelivery [1]]).drop (1 + 1) = [Event.stderr msg] :=
  (consumeLoop_stops_on_failed_call echoHandler byteDecoder ()
    [failingDelivery [0] "closed", okDelivery [1]]).1 1 0 (AckCall.Ack false)
    (failingDelivery [0] "closed") "closed" (by decide) rfl rfl

/-- C2, as stated, fails: the decoder rejects the first delivery, and the loop issues no
`Nack(false, false)` for it (it writes one log line and returns), and it never handles the
second delivery, whose body decodes. -/
theorem consumeLoop_decode_failure_counterexample :
    byteDecoder (okDelivery []).Body = .error "malformed" ∧
    byteDecoder (okDelivery [0]).Body = .ok 0 ∧
    consumeLoop echoHandler byteDecoder () 0 [okDelivery [], okDelivery [0]] =
      [Event.stderr "failed to decode delivery: malformed\n"] ∧
    Event.call 0 (AckCall.Nack false false) ∉
      consumeLoop echoHandler byteDecoder () 0 [okDelivery [], okDelivery [0]] ∧
    Event.handler 1 0 0 ∉
      consumeLoop echoHandler byteDecoder () 0 [okDelivery [], okDelivery [0]] :=
  ⟨rfl, rfl, by decide, by decide, by decide⟩

/-- C2, amended: when the loop comes to a delivery that the decoder rejects with error `e`,
all it does from there on is write "failed to decode delivery: e" to standard error; and
wherever that delivery stands in the feed, the trace holds no handler invocation and no
acknowledgment call for it or for any later delivery. -/
theorem consumeLoop_decode_failure_ends_loop {T σ : Type} (h : σ → T → AckType × σ)
    (u : Bytes → Except Err T) (d : Delivery) (post : List Delivery) (e : Err)
    (he : u d.Body = .error e) :
    (∀ (s : σ) (i : Nat), consumeLoop h u s i (d :: post) =
      [Event.stderr ("failed to decode delivery: " ++ e ++ "\n")]) ∧
    (∀ (before : List Delivery) (s : σ) (i : Nat),
      ∀ ev ∈ consumeLoop h u s i (before ++ d :: post), ∀ j, ev.idx = some j →
        j < i + before.length) := by
  have first : ∀ (s : σ) (i : Nat), consumeLoop h u s i (d :: post) =
      [Event.stderr ("failed to decode delivery: " ++ e ++ "\n")] := by
    intro s i
    simp [consumeLoop, he]
  refine ⟨first, ?_⟩
  intro pre
  induction pre with
  | nil =>
    intro s i ev hev j hj
    rw [List.nil_append, first] at hev
    simp at hev
    subst hev
    simp [Event.idx] at hj
  | cons d0 pre ih =>
    intro s i ev hev j hj
    rw [List.cons_append] at hev
    simp only [List.length_cons]
    rcases consumeLoop_cons_shape h u s i d0 (pre ++ d :: post) with ⟨e0, _, ht⟩ |
      ⟨v0, _, ⟨_, ht⟩ | ⟨c0, _, _, ht⟩ | ⟨c0, e0, msg, _, _, ht⟩⟩
    · rw [ht] at hev
      simp at hev
      subst hev
      simp [Event.idx] at hj
    · rw [ht] at hev
      rcases List.mem_cons.1 hev with rfl | hev
      · simp [Event.idx] at hj; omega
      · have := ih _ _ ev hev j hj
        omega
    · rw [ht] at hev
      rcases List.mem_cons.1 hev with rfl | hev
      · simp [Event.idx] at hj; omega
      · rcases List.mem_cons.1 hev with rfl | hev
        · simp [Event.idx] at hj; omega
        · have := ih _ _ ev hev j hj
          omega
    · rw [ht] at hev
      simp at hev
      rcases hev with rfl | rfl | rfl <;> simp [Event.idx] at hj <;> omega

/-- Witness for the amended C2: the second of three deliveries is malformed. -/
theorem consumeLoop_decode_failure_ends_loop_witness :
    (∀ (s : Unit) (i : Nat), consumeLoop echoHandler byteDecoder s i
        (okDelivery [] :: [okDelivery [2]]) =
      [Event.stderr ("failed to decode delivery: " ++ "malformed" ++ "\n")]) ∧
    (∀ (before : List Delivery) (s : Unit) (i : Nat),
      ∀ ev ∈ consumeLoop echoHandler byteDecoder s i
          (before ++ okDelivery [] :: [okDelivery [2]]),
        ∀ j, ev.idx = some j → j < i + before.length) :=
  consumeLoop_decode_failure_ends_loop echoHandler byteDecoder (okDelivery [])
    [okDelivery [2]] "malformed" rfl

/-- With every delivery decoding, a handler that returns only the three named decisions
and acknowledgment calls that succeed, the calls are for the deliveries in order, one
each. -/
theorem consumeLoop_calls_range {T σ : Type} (h : σ → T → AckType × σ)
    (u : Bytes → Except Err T)
    (hret : ∀ s v, (h s v).1 = Ack ∨ (h s v).1 = NackRequeue ∨ (h s v).1 = NackDiscard)
    (ds : List Delivery) :
    ∀ (s : σ) (i0 : Nat),
      (∀ d ∈ ds, ∃ v, u d.Body = .ok v) → (∀ d ∈ ds, ∀ c, d.invoke c = none) →
      (consumeLoop h u s i0 ds).filterMap Event.ackFor = List.range' i0 ds.length := by
  induction ds with
  | nil => intro s i0 _ _; simp [consumeLoop]
  | cons d rest ih =>
    intro s i0 hdec hok
    have hdec1 : ∀ d1 ∈ rest, ∃ v, u d1.Body = .ok v :=
      fun d1 hd1 => hdec d1 (List.mem_cons_of_mem _ hd1)
    have hok1 : ∀ d1 ∈ rest, ∀ c, d1.invoke c = none :=
      fun d1 hd1 => hok d1 (List.mem_cons_of_mem _ hd1)
    rcases consumeLoop_cons_shape h u s i0 d rest with ⟨e, he, _⟩ |
      ⟨v0, _, ⟨hn, _⟩ | ⟨c0, _, _, ht⟩ | ⟨c0, e, msg, _, hi, _⟩⟩
    · obtain ⟨v, hv⟩ := hdec d (List.mem_cons_self _ _)
      rw [hv] at he
      cases he
    · have := (specCall_eq_none _).1 hn
      rcases hret s v0 with h0 | h1 | h2
      · exact absurd h0 this.1
      · exact absurd h1 this.2.1
      · exact absurd h2 this.2.2
    · rw [ht]
      simp [Event.ackFor, List.range'_succ, ih _ _ hdec1 hok1]
    · rw [hok d (List.mem_cons_self _ _) c0] at hi
      cases hi

/-- C3: for a feed whose bodies all decode, a handler that returns only `Ack`,
`NackRequeue` or `NackDiscard`, and a broker whose acknowledgment calls all succeed, the
deliveries that the acknowledgment calls of the loop are issued on are 0, 1, ..., n-1 in
this order: exactly one call per delivery, none twice, none skipped. -/
theorem consumeLoop_one_call_per_delivery {T σ : Type} (h : σ → T → AckType × σ)
    (u : Bytes → Except Err T) (s : σ) (ds : List Delivery)
    (hdec : ∀ d ∈ ds, ∃ v, u d.Body = .ok v)
    (hret : ∀ s v, (h s v).1 = Ack ∨ (h s v).1 = NackRequeue ∨ (h s v).1 = NackDiscard)
    (hok : ∀ d ∈ ds, ∀ c, d.invoke c = none) :
    (consumeLoop h u s 0 ds).filterMap Event.ackFor = List.range ds.length := by
  rw [List.range_eq_range']
  exact consumeLoop_calls_range h u hret ds s 0 hdec hok

/-- Witness for C3: three deliveries handled by a stateful handler that always
acknowledges. -/
theorem consumeLoop_one_call_per_delivery_witness :
    (consumeLoop countingHandler byteDecoder 0 0
        [okDelivery [4], okDelivery [5], okDelivery [6]]).filterMap Event.ackFor =
      List.range [okDelivery [4], okDelivery [5], okDelivery [6]].length :=
  consumeLoop_one_call_per_delivery countingHandler byteDecoder 0
    [okDelivery [4], okDelivery [5], okDelivery [6]]
    (by
      intro d hd
      simp only [List.mem_cons, List.mem_singleton, List.not_mem_nil, or_false] at hd
      rcases hd with rfl | rfl | rfl
      · exact ⟨4, rfl⟩
      · exact ⟨5, rfl⟩
      · exact ⟨6, rfl⟩)
    (fun _ _ => Or.inl rfl)
    (by
      intro d hd c
      simp only [List.mem_cons, List.mem_singleton, List.not_mem_nil, or_false] at hd
      rcases hd with rfl | rfl | rfl <;> cases c <;> rfl)

/-- The handler is invoked on the decoded bodies of the first `k` deliveries, in order. -/
theorem consumeLoop_handler_args {T σ : Type} (h : σ → T → AckType × σ)
    (u : Bytes → Except Err T) (ds : List Delivery) :
    ∀ (s : σ) (i0 : Nat), ∃ k, k ≤ ds.length ∧
      ((consumeLoop h u s i0 ds).filterMap Event.handlerArg).map Prod.fst =
        List.range' i0 k ∧
      (ds.take k).map (fun d => u d.Body) =
        ((consumeLoop h u s i0 ds).filterMap Event.handlerArg).map
          (fun x => Except.ok x.2) := by
  induction ds with
  | nil => intro s i0; exact ⟨0, by simp [consumeLoop]⟩
  | cons d rest ih =>
    intro s i0
    rcases consumeLoop_cons_shape h u s i0 d rest with ⟨e, _, ht⟩ |
      ⟨v0, hv0, ⟨_, ht⟩ | ⟨c0, _, _, ht⟩ | ⟨c0, e, msg, _, _, ht⟩⟩
    · exact ⟨0, by simp [ht, Event.handlerArg]⟩
    · obtain ⟨k, hk, h1, h2⟩ := ih (h s v0).2 (i0 + 1)
      refine ⟨k + 1, by simpa using hk, ?_, ?_⟩
      · simp [ht, Event.handlerArg, List.range'_succ, h1]
      · simp [ht, Event.handlerArg, hv0, h2]
    · obtain ⟨k, hk, h1, h2⟩ := ih (h s v0).2 (i0 + 1)
      refine ⟨k + 1, by simpa using hk, ?_, ?_⟩
      · simp [ht, Event.handlerArg, Event.ackFor, List.range'_succ, h1]
      · simp [ht, Event.handlerArg, hv0, h2]
    · refine ⟨1, by simp, ?_, ?_⟩
      · simp [ht, Event.handlerArg]
      · simp [ht, Event.handlerArg, hv0]

/-- C5: the loop processes the feed strictly in delivery order. The handler is invoked on
the decoded bodies of the first `k` deliveries, for some `k`, one after the other in feed
order; and whenever the handler is invoked for delivery `j`, every acknowledgment call for
an earlier delivery stands before that invocation in the trace (so the call for delivery
`i` comes before the handler runs for delivery `i + 1`), while a call for delivery `j` or a
later one stands after it. -/
theorem consumeLoop_in_delivery_order {T σ : Type} (h : σ → T → AckType × σ)
    (u : Bytes → Except Err T) (s : σ) (ds : List Delivery) :
    (∃ k, k ≤ ds.length ∧
      ((consumeLoop h u s 0 ds).filterMap Event.handlerArg).map Prod.fst = List.range k ∧
      (ds.take k).map (fun d => u d.Body) =
        ((consumeLoop h u s 0 ds).filterMap Event.handlerArg).map
          (fun x => Except.ok x.2)) ∧
    (∀ (p q j i : Nat) (v : T) (a : AckType) (c : AckCall),
      (consumeLoop h u s 0 ds)[p]? = some (Event.handler j v a) →
      (consumeLoop h u s 0 ds)[q]? = some (Event.call i c) →
      (i < j → q < p) ∧ (j ≤ i → p < q)) := by
  refine ⟨?_, ?_⟩
  · obtain ⟨k, hk, h1, h2⟩ := consumeLoop_handler_args h u ds s 0
    exact ⟨k, hk, by rw [List.range_eq_range']; exact h1, h2⟩
  · intro p q j i v a c hp hq
    have hne : p ≠ q := by
      intro hpq
      subst hpq
      rw [hp] at hq
      cases hq
    refine ⟨?_, ?_⟩
    · intro hij
      by_contra hcon
      have hlt : p < q := by omega
      have := consumeLoop_order h u ds s 0 p q _ _ hlt hp hq j i rfl rfl
      omega
    · intro hji
      by_contra hcon
      have hlt : q < p := by omega
      have := consumeLoop_order h u ds s 0 q p _ _ hlt hq hp i j rfl rfl
      simp [Event.ackFor] at this
      omega

/-- Witness for C5: in a run over three deliveries, the call for delivery 0 stands before
the handler invocation for delivery 1. -/
theorem consumeLoop_in_delivery_order_witness :
    (consumeLoop echoHandler byteDecoder () 0
        [okDelivery [0], okDelivery [2], okDelivery [1]])[2]? = some (Event.handler 1 2 2) ∧
    (consumeLoop echoHandler byteDecoder () 0
        [okDelivery [0], okDelivery [2], okDelivery [1]])[1]? =
      some (Event.call 0 (AckCall.Ack false)) ∧
    1 < 2 :=
  ⟨by decide, by decide,
    ((consumeLoop_in_delivery_order echoHandler byteDecoder ()
      [okDelivery [0], okDelivery [2], okDelivery [1]]).2 2 1 1 0 2 2 (AckCall.Ack false)
      (by decide) (by decide)).1 (by decide)⟩

end Pubsub
